import Mathlib

/-!
Verification of the export orchestration engine of the onshape-tools
repository. The definitions below are a shallow embedding of
`src/app/api/onshape/export/helpers.ts` and of the `POST` handler of
`src/app/api/onshape/export/route.ts` (the revision that imports its helpers
from `helpers.ts`). JavaScript strings are Lean `String`s, byte buffers are
`List Nat`, `undefined`/absent strings are modelled as `""` where the source
only tests truthiness and as `Option String` where it tests nullishness.
Network effects are replaced by an oracle environment (`ProviderEnv`) that
records, per expanded (combination, format) unit, the provider responses the
handler would observe.
-/

namespace Onshape

/-- JavaScript `s.toLowerCase()` restricted to the ASCII mapping. -/
def jsToLower (s : String) : String :=
  String.mk (s.data.map Char.toLower)

/-- JavaScript `s.toUpperCase()` restricted to the ASCII mapping. -/
def jsToUpper (s : String) : String :=
  String.mk (s.data.map Char.toUpper)

/-- JavaScript `s.includes(pat)` (substring containment). -/
def jsIncludes (s pat : String) : Bool :=
  s.data.tails.any (fun t => pat.data.isPrefixOf t)

/-- JavaScript `s.startsWith(pre)`. -/
def jsStartsWith (s pre : String) : Bool :=
  pre.data.isPrefixOf s.data

/-- JavaScript `s.endsWith(suf)`. -/
def jsEndsWith (s suf : String) : Bool :=
  suf.data.isSuffixOf s.data

/-- JavaScript `a || b` on strings (`""` is falsy). -/
def jsOrElse (a b : String) : String :=
  if a = "" then b else a

/-- A JavaScript `string | number` configuration value. A numeric value is
carried together with its decimal rendering, i.e. the string produced by
JavaScript `String(n)`, so that the embedding stays exact without floating
point. -/
inductive ConfigValue where
  | str (s : String)
  | num (render : String)
deriving DecidableEq, Repr

/-- JavaScript `String(v)` on a configuration value. -/
def ConfigValue.toJsString : ConfigValue → String
  | .str s => s
  | .num r => r

/-- One configuration parameter of the request (`ConfigOption` in
`components/types.ts`; the UI additionally populates `keyDisplay`, which
`helpers.ts` reads through `opt.keyDisplay ?? opt.key`). -/
structure ConfigOption where
  key : String
  keyDisplay : Option String
  values : List ConfigValue
  unit : String
deriving DecidableEq, Repr

/-- Model of `cartesianProduct` from `helpers.ts`:
`arrays.reduce((acc, arr) => acc.flatMap(prev => arr.map(val => [...prev, val])), [[]])`. -/
def cartesianProduct {α : Type} (arrays : List (List α)) : List (List α) :=
  arrays.foldl
    (fun acc arr => acc.flatMap (fun prev => arr.map (fun val => prev ++ [val])))
    [[]]

/-- One provider-facing parameter record built by `buildConfigPairs` in
`helpers.ts`. -/
structure ConfigPair where
  parameterId : String
  parameterName : String
  parameterValue : String
  parameterBareValue : String
deriving DecidableEq, Repr

/-- Model of `buildConfigPairs` from `helpers.ts`. Out-of-range access `combo[i]`
yields JavaScript `undefined`, whose `String(...)` rendering is
`"undefined"` and which is not a number; `.str "undefined"` models that. -/
def buildConfigPairs (options : List ConfigOption) (combo : List ConfigValue) :
    List ConfigPair :=
  options.enum.map (fun p =>
    let opt := p.2
    let v := combo.getD p.1 (.str "undefined")
    { parameterId := opt.key
      parameterName := opt.keyDisplay.getD opt.key
      parameterValue :=
        match v with
        | .num r => r ++ (if opt.unit ≠ "" then " " ++ opt.unit else "")
        | .str s => s
      parameterBareValue := v.toJsString })

/-- Model of `humanConfigTag` from `helpers.ts` (it only reads the `parameterName` and
`parameterBareValue` fields of each pair). -/
def humanConfigTag (pairs : List ConfigPair) : String :=
  if pairs.isEmpty then ""
  else
    String.intercalate " | "
      (pairs.map (fun q => q.parameterName ++ " = " ++ q.parameterBareValue))

/-- Argument record of `getBaseFileName` in `helpers.ts`. -/
structure BaseFileNameArgs where
  documentId : String
  elementId : String
  elementName : String
  partId : String
  partName : String
  combineParts : Bool
deriving DecidableEq, Repr

/-- Model of `getBaseFileName` from `helpers.ts`:
`combineParts ? elementName : elementName + " - " + partName`. -/
def getBaseFileName (a : BaseFileNameArgs) : String :=
  if a.combineParts then a.elementName else a.elementName ++ " - " ++ a.partName

/-- Model of `extForFormat` from `helpers.ts`. -/
def extForFormat (fmt : String) : String :=
  let f := jsToLower fmt
  if f = "solidworks" then "sldprt"
  else if f = "parasolid" then "x_t"
  else if f = "iges" then "igs"
  else if f = "step" then "step"
  else f

/-- Model of `isZipPayload` from `helpers.ts`: content type contains "zip", or the
buffer starts with the two magic bytes `0x50 0x4b` ("PK"). -/
def isZipPayload (contentType : Option String) (buffer : List Nat) : Bool :=
  let type := jsToLower (contentType.getD "")
  if jsIncludes type "zip" then true
  else decide (2 ≤ buffer.length) && (buffer.getD 0 0 == 0x50) && (buffer.getD 1 0 == 0x4b)

/-- Character class of `normalizeName`: `[a-z0-9]` after lowercasing. -/
def isLowerAlphaNum (c : Char) : Bool :=
  (decide ('a' ≤ c) && decide (c ≤ 'z')) || (decide ('0' ≤ c) && decide (c ≤ '9'))

/-- Model of `normalizeName` from `helpers.ts`:
`s.toLowerCase().replace(/[^a-z0-9]+/g, "")`. -/
def normalizeName (s : String) : String :=
  String.mk ((s.data.map Char.toLower).filter isLowerAlphaNum)

/-- One entry of a JSZip archive: its (path-qualified) name, directory flag
and decompressed content. -/
structure ZipEntry where
  name : String
  dir : Bool
  content : List Nat
deriving DecidableEq, Repr

/-- Options record of `pickZipEntryForPart`. The source receives
`partName`/`elementName` as possibly undefined strings and only ever tests
their truthiness or coalesces them with `""`, so `""` models an absent
name. -/
structure PickOpts where
  extCandidates : List String
  partName : String
  elementName : String
deriving DecidableEq, Repr

/-- Splitting a character list at every occurrence of a separator, the list
analogue of JavaScript `String.split` with a one-character separator. -/
def splitOnSep (sep : Char) : List Char → List (List Char)
  | [] => [[]]
  | c :: cs =>
    let rest := splitOnSep sep cs
    if c = sep then [] :: rest
    else
      match rest with
      | [] => [[c]]
      | r :: rs => (c :: r) :: rs

/-- JavaScript `name.split("/").pop() || name` (the last path segment, the
whole name when that segment is the empty string). -/
def lastSegment (name : String) : String :=
  let last := String.mk ((splitOnSep '/' name.data).getLastD name.data)
  if last = "" then name else last

/-- Non-directory entries of the archive (`Object.values(zip.files).filter(f => !f.dir)`). -/
def nonDirEntries (files : List ZipEntry) : List ZipEntry :=
  files.filter (fun f => !f.dir)

/-- Entries whose last name segment ends with one of the candidate
extensions (case-insensitively), as filtered in `pickZipEntryForPart`. -/
def extMatches (files : List ZipEntry) (opts : PickOpts) : List ZipEntry :=
  (nonDirEntries files).filter (fun f =>
    opts.extCandidates.any (fun ext =>
      jsEndsWith (jsToLower (lastSegment f.name)) ("." ++ jsToLower ext)))

/-- Model of `pickZipEntryForPart` from `helpers.ts`, over the entry list of the
loaded archive. -/
def pickZipEntryForPart (files : List ZipEntry) (opts : PickOpts) : Option ZipEntry :=
  let entries := nonDirEntries files
  if entries.isEmpty then none
  else
    let byExt := extMatches files opts
    if byExt.length = 1 then byExt.head?
    else if byExt.length = 0 then
      if entries.length = 1 then entries.head? else none
    else
      let normPart := normalizeName opts.partName
      let normElem := normalizeName opts.elementName
      let expectedPre :=
        if opts.elementName ≠ "" ∧ opts.partName ≠ "" then
          normalizeName (opts.elementName ++ " - " ++ opts.partName)
        else ""
      match byExt.find? (fun f =>
          jsStartsWith (normalizeName (lastSegment f.name)) expectedPre) with
      | some hit => some hit
      | none =>
        match (if normPart ≠ "" then
            byExt.find? (fun f =>
              jsIncludes (normalizeName (lastSegment f.name)) normPart)
          else none) with
        | some hit => some hit
        | none =>
          match (if normElem ≠ "" then
              byExt.find? (fun f =>
                jsIncludes (normalizeName (lastSegment f.name)) normElem)
            else none) with
          | some hit => some hit
          | none => byExt.head?

/-- Success flag of a `fetch` response (`Response.ok`): status in `[200, 300)`. -/
def respOk (status : Nat) : Bool :=
  decide (200 ≤ status ∧ status < 300)

/-- One poll of `GET /translations/{id}` as observed by the handler: either
the status request itself fails (non-2xx transport), or it delivers a JSON
body with `requestState`, `resultExternalDataIds` and `failureReason`. -/
inductive PollResult where
  | transport (status : Nat) (statusText : String)
  | state (requestState : String) (resultIds : List String) (failureReason : Option String)
deriving DecidableEq, Repr

/-- Outcome of the polling `while` loop, together with the number of status
polls that were issued before the loop ended. -/
inductive PollExit where
  | done (resultIds : List String) (pollsIssued : Nat)
  | failed (failureReason : Option String) (pollsIssued : Nat)
  | transport (status : Nat) (statusText : String) (pollsIssued : Nat)
  | timeout (pollsIssued : Nat)
deriving DecidableEq, Repr

/-- The polling `while (attempt < maxAttempts)` loop of the handler, with
`remaining = maxAttempts - attempt` as structural fuel. `polls i` is the
provider's answer to the `(i+1)`-th status poll. On a `DONE` or `FAILED`
state and on a transport error the loop ends at once; on any other state it
increments `attempt` and polls again. -/
def pollLoopFrom (polls : Nat → PollResult) : Nat → Nat → PollExit
  | 0, attempt => .timeout attempt
  | remaining + 1, attempt =>
    match polls attempt with
    | .transport s t => .transport s t (attempt + 1)
    | .state rs ids reason =>
      if rs = "DONE" then .done ids (attempt + 1)
      else if rs = "FAILED" then .failed reason (attempt + 1)
      else pollLoopFrom polls remaining (attempt + 1)

/-- Attempt budget `const maxAttempts = 90` of every polling branch of the handler. -/
def maxAttempts : Nat := 90

/-- The full polling loop: start at `attempt = 0` with `maxAttempts`
attempts available. -/
def pollLoop (polls : Nat → PollResult) : PollExit :=
  pollLoopFrom polls maxAttempts 0

/-- Provider response to the follow-up fetch of a 307 redirect target in the
STL branch. -/
structure RedirectScript where
  status : Nat
  statusText : String
  contentType : Option String
  body : List Nat

/-- Provider behaviour for one synchronous STL export request: initial
response status, headers and body, and the redirect-target response used
when the initial status is 307. -/
structure StlScript where
  status : Nat
  statusText : String
  contentType : Option String
  location : Option String
  redirect : RedirectScript
  body : List Nat

/-- Provider behaviour for one asynchronous translation unit: submission
response, the sequence of poll responses, and the external-data download
response (with, for the single-part path, the entry list of the returned
archive when the payload is zipped). -/
structure TranslationScript where
  submitStatus : Nat
  submitStatusText : String
  polls : Nat → PollResult
  downloadStatus : Nat
  downloadStatusText : String
  downloadContentType : Option String
  downloadBody : List Nat
  innerEntries : List ZipEntry

/-- Provider behaviour for one expanded (combination, format) unit; the
handler consults `stl` in the STL branch and `translation` otherwise. -/
structure UnitScript where
  stl : StlScript
  translation : TranslationScript

/-- Oracle for every provider interaction of one `POST` invocation:
workspace resolution, per-combination configuration encoding, and the
per-unit scripts indexed by (combination index, format index). -/
structure ProviderEnv where
  workspaceThrow : Bool
  workspaceId : Option String
  encodeOk : Nat → Bool
  scripts : Nat → Nat → UnitScript

/-- A JSON error response `{error}` with its HTTP status. -/
structure ErrorResponse where
  status : Nat
  error : String
deriving DecidableEq, Repr

/-- The parsed request body of the handler (`ExportInput`), after the
destructuring `const { ... } = body`. `formats = none` models a missing or
non-array `formats`; empty strings model missing string fields, which the
source only tests for truthiness. `authHeader` is the `authorization`
request header. -/
structure ExportRequest where
  authHeader : Option String
  documentId : String
  elementId : String
  elementName : String
  partId : String
  partName : String
  formats : Option (List String)
  configOptions : List ConfigOption
  combineParts : Bool

/-- The handler's response: a JSON error or the final archive, the latter
as its entry list (name, bytes) in central-directory order. -/
inductive ExportResult where
  | errorResponse (status : Nat) (error : String)
  | archive (entries : List (String × List Nat))
deriving DecidableEq, Repr

/-- Model of `zip.file(name, content)`: JSZip replaces an existing entry with the
same name and appends a fresh name at the end. -/
def zipFile (files : List (String × List Nat)) (name : String) (content : List Nat) :
    List (String × List Nat) :=
  if files.any (fun e => e.1 = name) then
    files.map (fun e => if e.1 = name then (name, content) else e)
  else files ++ [(name, content)]

/-- The combination list of the handler:
`hasConfig ? cartesianProduct(options.map(o => o.values)) : [[]]`. -/
def combosOf (req : ExportRequest) : List (List ConfigValue) :=
  if req.configOptions.isEmpty then [[]]
  else cartesianProduct (req.configOptions.map (fun o => o.values))

/-- Pair list `hasConfig ? buildConfigPairs(options, combo) : []` of the combination
loop. -/
def configPairsFor (req : ExportRequest) (combo : List ConfigValue) : List ConfigPair :=
  if req.configOptions.isEmpty then [] else buildConfigPairs req.configOptions combo

/-- Tag `configPairs.length ? humanConfigTag(...) : ""` of the combination
loop. -/
def configTagFor (configPairs : List ConfigPair) : String :=
  if configPairs.isEmpty then "" else humanConfigTag configPairs

/-- Suffix `const tagSuffix = configPairs.length ? \x60 - ${configTag}\x60 : ""`,
computed identically in each export branch. -/
def tagSuffixOf (configPairs : List ConfigPair) (configTag : String) : String :=
  if configPairs.length ≠ 0 then " - " ++ configTag else ""

/-- Base file name as assembled in the handler, which passes the request's
names (coalesced with `""`) to `getBaseFileName`. -/
def baseNameOf (req : ExportRequest) : String :=
  getBaseFileName
    { documentId := req.documentId
      elementId := req.elementId
      elementName := req.elementName
      partId := req.partId
      partName := req.partName
      combineParts := req.combineParts }

/-- Final part of the STL branch: decide between the `.zip` and `.stl`
entry name via `isZipPayload` and store the payload. -/
def stlEntry (base tagSuffix contentType : String) (fileBuffer : List Nat) :
    String × List Nat :=
  if isZipPayload (some contentType) fileBuffer then
    (base ++ tagSuffix ++ ".zip", fileBuffer)
  else
    (base ++ tagSuffix ++ ".stl", fileBuffer)

/-- The synchronous STL branch of the handler for one unit: manual redirect
handling (a 307 with no `location` or with a failing target is terminal),
non-2xx is terminal, otherwise the payload is stored. -/
def runStlUnit (base tagSuffix : String) (s : StlScript) :
    Except ErrorResponse (String × List Nat) :=
  let contentType0 := s.contentType.getD ""
  if s.status = 307 then
    match s.location with
    | none => .error ⟨500, "No redirect URL for STL"⟩
    | some _ =>
      if !respOk s.redirect.status then
        .error ⟨s.redirect.status, "STL redirect failed: " ++ s.redirect.statusText⟩
      else
        .ok (stlEntry base tagSuffix
          (jsOrElse (s.redirect.contentType.getD "") contentType0) s.redirect.body)
  else if !respOk s.status then
    .error ⟨s.status, "STL export failed: " ++ s.statusText⟩
  else
    .ok (stlEntry base tagSuffix contentType0 s.body)

/-- The asynchronous individual-part branch of the handler for one unit:
submit the translation, poll, then download; a zipped payload goes through
`pickZipEntryForPart` and failure to locate an entry is terminal; `DONE`
with no result ids completes the unit with no entry. -/
def runSingleTranslation (req : ExportRequest) (base tagSuffix : String)
    (configPairsLen : Nat) (fmt : String) (t : TranslationScript) :
    Except ErrorResponse (Option (String × List Nat)) :=
  if !respOk t.submitStatus then
    .error ⟨t.submitStatus,
      "Failed to start " ++ fmt ++ " translation: " ++ t.submitStatusText⟩
  else
    match pollLoop t.polls with
    | .transport s text _ =>
      .error ⟨s, "Failed to read translation status: " ++ text⟩
    | .failed reason _ =>
      .error ⟨500, "Translation failed (" ++ fmt ++ "): " ++ reason.getD "Unknown"⟩
    | .timeout _ =>
      .error ⟨408, "Translation timeout for " ++ fmt ++
        (if configPairsLen ≠ 0 then " (configuration encoded)" else "")⟩
    | .done ids _ =>
      if ids.isEmpty then .ok none
      else if !respOk t.downloadStatus then
        .error ⟨t.downloadStatus,
          "Failed to download " ++ fmt ++ " file: " ++ t.downloadStatusText⟩
      else
        let ext := extForFormat fmt
        if isZipPayload t.downloadContentType t.downloadBody then
          match pickZipEntryForPart t.innerEntries
            { extCandidates := if ext = "step" then ["step", "stp"] else [ext]
              partName := req.partName
              elementName := req.elementName } with
          | none =>
            .error ⟨500, "Could not locate " ++ fmt ++
              " for the requested part inside translator zip."⟩
          | some entry =>
            .ok (some (base ++ tagSuffix ++ "." ++ ext, entry.content))
        else
          .ok (some (base ++ tagSuffix ++ "." ++ ext, t.downloadBody))

/-- The asynchronous combined-parts branch of the handler for one unit:
as the single-part branch, but a zipped payload is stored verbatim under a
`.zip` entry name instead of being extracted. -/
def runCombinedTranslation (base tagSuffix : String)
    (configPairsLen : Nat) (fmt : String) (t : TranslationScript) :
    Except ErrorResponse (Option (String × List Nat)) :=
  if !respOk t.submitStatus then
    .error ⟨t.submitStatus,
      "Failed to start " ++ fmt ++ " translation: " ++ t.submitStatusText⟩
  else
    match pollLoop t.polls with
    | .transport s text _ =>
      .error ⟨s, "Failed to read translation status: " ++ text⟩
    | .failed reason _ =>
      .error ⟨500, "Translation failed (" ++ fmt ++ "): " ++ reason.getD "Unknown"⟩
    | .timeout _ =>
      .error ⟨408, "Translation timeout for " ++ fmt ++
        (if configPairsLen ≠ 0 then " (configuration encoded)" else "")⟩
    | .done ids _ =>
      if ids.isEmpty then .ok none
      else if !respOk t.downloadStatus then
        .error ⟨t.downloadStatus,
          "Failed to download " ++ fmt ++ " file: " ++ t.downloadStatusText⟩
      else
        let ext := extForFormat fmt
        if isZipPayload t.downloadContentType t.downloadBody then
          .ok (some (base ++ tagSuffix ++ ".zip", t.downloadBody))
        else
          .ok (some (base ++ tagSuffix ++ "." ++ ext, t.downloadBody))

/-- Execution of one expanded (combination, format) unit: uppercase the
format name, then dispatch to the STL, individual-part or combined-parts
branch. The result is the unit's archive entry (`some`), a zero-result
completion (`none`), or the error response the handler returns. -/
def runUnit (req : ExportRequest) (configPairs : List ConfigPair) (configTag : String)
    (format : String) (script : UnitScript) :
    Except ErrorResponse (Option (String × List Nat)) :=
  let fmt := jsToUpper format
  let base := baseNameOf req
  let tagSuffix := tagSuffixOf configPairs configTag
  if fmt = "STL" then
    (runStlUnit base tagSuffix script.stl).map (fun e => some e)
  else if !req.combineParts then
    runSingleTranslation req base tagSuffix configPairs.length fmt script.translation
  else
    runCombinedTranslation base tagSuffix configPairs.length fmt script.translation

/-- The unit executed for combination index `i` and format index `j`, with
its inputs recomputed from the request exactly as the loops do. -/
def unitResult (env : ProviderEnv) (req : ExportRequest) (i j : Nat) :
    Except ErrorResponse (Option (String × List Nat)) :=
  let configPairs := configPairsFor req ((combosOf req).getD i [])
  runUnit req configPairs (configTagFor configPairs)
    ((req.formats.getD []).getD j "") (env.scripts i j)

/-- The inner `for (const format of formats)` loop for combination index
`i`: `fmts` is the remaining format list, `j` the index of its head, and
`acc` the archive accumulated so far. The first unit error is returned
directly, aborting everything that follows. -/
def runFormats (env : ProviderEnv) (req : ExportRequest) (i : Nat)
    (configPairs : List ConfigPair) (configTag : String) :
    List String → Nat → List (String × List Nat) →
    Except ErrorResponse (List (String × List Nat))
  | [], _, acc => .ok acc
  | format :: rest, j, acc =>
    match runUnit req configPairs configTag format (env.scripts i j) with
    | .error e => .error e
    | .ok none => runFormats env req i configPairs configTag rest (j + 1) acc
    | .ok (some nc) =>
      runFormats env req i configPairs configTag rest (j + 1) (zipFile acc nc.1 nc.2)

/-- The outer `for (const combo of combos)` loop: per combination, build the
config pairs and tag, encode the configuration once (a rejected encoding
throws and is caught by the handler's catch-all, yielding the generic 500),
then run every format. -/
def runCombos (env : ProviderEnv) (req : ExportRequest) :
    List (List ConfigValue) → Nat → List (String × List Nat) →
    Except ErrorResponse (List (String × List Nat))
  | [], _, acc => .ok acc
  | combo :: rest, i, acc =>
    let configPairs := configPairsFor req combo
    if configPairs.length ≠ 0 ∧ env.encodeOk i = false then
      .error ⟨500, "Failed to export"⟩
    else
      match runFormats env req i configPairs (configTagFor configPairs)
          (req.formats.getD []) 0 acc with
      | .error e => .error e
      | .ok acc2 => runCombos env req rest (i + 1) acc2

/-- The whole `POST` handler over the oracle environment: auth check,
request validation, workspace resolution (a non-2xx document fetch throws
and is caught by the catch-all), combination expansion, the export loops,
and finally the assembled archive. -/
def runExport (env : ProviderEnv) (req : ExportRequest) : ExportResult :=
  if req.authHeader.isNone then
    .errorResponse 401 "Missing authorization header"
  else if req.documentId = "" ∨ req.elementId = "" ∨ req.formats.isNone then
    .errorResponse 400 "Missing required parameters: documentId, elementId, formats[]"
  else if ¬req.combineParts ∧ req.partId = "" ∧ req.partName = "" then
    .errorResponse 400 "partId or partName is required when combineParts is false"
  else if env.workspaceThrow then
    .errorResponse 500 "Failed to export"
  else
    match env.workspaceId with
    | none => .errorResponse 400 "No default workspace found"
    | some _ =>
      match runCombos env req (combosOf req) 0 [] with
      | .error e => .errorResponse e.status e.error
      | .ok entries => .archive entries

/-- A poll response that keeps the loop polling: a successfully fetched
status that is neither `DONE` nor `FAILED`. -/
def nonTerminal : PollResult → Bool
  | .transport _ _ => false
  | .state rs _ _ => !(rs == "DONE") && !(rs == "FAILED")

/-! ## Bookkeeping derived from the model -/

/-- Entries added by the units of one combination's format loop, in
submission order: one entry per unit that completes with a payload, none
for zero-result units. -/
def formatAdds (env : ProviderEnv) (req : ExportRequest) (i : Nat)
    (configPairs : List ConfigPair) (configTag : String) :
    List String → Nat → List (String × List Nat)
  | [], _ => []
  | format :: rest, j =>
    (match runUnit req configPairs configTag format (env.scripts i j) with
     | .ok (some nc) => [nc]
     | _ => []) ++ formatAdds env req i configPairs configTag rest (j + 1)

/-- Entries added across the combination loop. -/
def comboAdds (env : ProviderEnv) (req : ExportRequest) :
    List (List ConfigValue) → Nat → List (String × List Nat)
  | [], _ => []
  | combo :: rest, i =>
    let configPairs := configPairsFor req combo
    formatAdds env req i configPairs (configTagFor configPairs)
        (req.formats.getD []) 0
      ++ comboAdds env req rest (i + 1)

/-- Every payload entry of the request, in submission order. -/
def allAdds (env : ProviderEnv) (req : ExportRequest) : List (String × List Nat) :=
  comboAdds env req (combosOf req) 0

/-! ## Concrete provider scenarios used to instantiate the theorems -/

/-- A successful synchronous STL response carrying the given body. -/
def stlOk (body : List Nat) : StlScript :=
  { status := 200, statusText := "OK", contentType := some "model/stl"
    location := none, redirect := ⟨200, "OK", none, []⟩, body := body }

/-- A failing synchronous STL response: HTTP 400, not a redirect. -/
def stlBad : StlScript :=
  { status := 400, statusText := "Bad Request", contentType := none
    location := none, redirect := ⟨200, "OK", none, []⟩, body := [] }

/-- A translation unit whose first poll reports `DONE` with the given
result ids and whose download delivers the given payload. -/
def translationDone (ids : List String) (ct : Option String) (body : List Nat) :
    TranslationScript :=
  { submitStatus := 200, submitStatusText := "OK"
    polls := fun _ => .state "DONE" ids none
    downloadStatus := 200, downloadStatusText := "OK"
    downloadContentType := ct, downloadBody := body, innerEntries := [] }

/-- Scenario for claim C1: two formats, the STL unit fails terminally while
the STEP sibling would succeed. -/
def reqC1 : ExportRequest :=
  { authHeader := some "Basic x", documentId := "d", elementId := "e"
    elementName := "Frame", partId := "p", partName := "Bracket"
    formats := some ["STL", "STEP"], configOptions := [], combineParts := false }

/-- Provider scripts for the C1 scenario. -/
def envC1 : ProviderEnv :=
  { workspaceThrow := false, workspaceId := some "w", encodeOk := fun _ => true
    scripts := fun _ j =>
      if j = 0 then ⟨stlBad, translationDone ["id0"] (some "application/octet-stream") [9]⟩
      else ⟨stlOk [7], translationDone ["id0"] (some "application/octet-stream") [9]⟩ }

/-- Scenario for claim C2: combine scope, two formats, both translations
deliver container payloads. -/
def reqC2 : ExportRequest :=
  { authHeader := some "Basic x", documentId := "d", elementId := "e"
    elementName := "Elem", partId := "", partName := ""
    formats := some ["STEP", "IGES"], configOptions := [], combineParts := true }

/-- Provider scripts for the C2 scenario: zipped payloads `[1]` and `[2]`. -/
def envC2 : ProviderEnv :=
  { workspaceThrow := false, workspaceId := some "w", encodeOk := fun _ => true
    scripts := fun _ j =>
      ⟨stlOk [7], translationDone ["id0"] (some "application/zip")
        (if j = 0 then [1] else [2])⟩ }

/-- Scenario for claim C4: a syntactically present but empty formats
list. -/
def reqC4 : ExportRequest :=
  { reqC1 with formats := some [] }

/-- Scenario for claim C8: combine scope with three formats; the first two
units deliver container payloads (colliding entry names) and the third ends
with `DONE` and zero result ids. -/
def reqC8 : ExportRequest :=
  { authHeader := some "Basic x", documentId := "d", elementId := "e"
    elementName := "Studio", partId := "", partName := ""
    formats := some ["PARASOLID", "IGES", "STEP"], configOptions := []
    combineParts := true }

/-- Provider scripts for the C8 scenario. -/
def envC8 : ProviderEnv :=
  { workspaceThrow := false, workspaceId := some "w", encodeOk := fun _ => true
    scripts := fun _ j =>
      if j = 2 then
        ⟨stlOk [7], { translationDone [] none [] with polls := fun _ => .state "DONE" [] none }⟩
      else
        ⟨stlOk [7], translationDone ["id0"] (some "application/zip")
          (if j = 0 then [3] else [4])⟩ }

/-! ## Lemmas about the combination expander -/

/-- Membership in the `reduce` underlying `cartesianProduct`, for an
arbitrary accumulator. -/
theorem mem_cartesianFold {α : Type} (as : List (List α)) (acc : List (List α)) (x : List α) :
    x ∈ as.foldl
        (fun acc arr => acc.flatMap (fun prev => arr.map (fun val => prev ++ [val]))) acc
      ↔ ∃ p ∈ acc, ∃ sfx, List.Forall₂ (fun v arr => v ∈ arr) sfx as ∧ x = p ++ sfx := by
  induction as generalizing acc x with
  | nil =>
    simp [List.forall₂_nil_right_iff]
  | cons a as ih =>
    rw [List.foldl_cons, ih]
    constructor
    · rintro ⟨p, hp, sfx, hsfx, rfl⟩
      simp only [List.mem_flatMap, List.mem_map] at hp
      obtain ⟨q, hq, v, hv, rfl⟩ := hp
      exact ⟨q, hq, v :: sfx, List.Forall₂.cons hv hsfx, by simp⟩
    · rintro ⟨q, hq, sfx2, hsfx2, rfl⟩
      rw [List.forall₂_cons_right_iff] at hsfx2
      obtain ⟨v, sfx, hv, hsfx, rfl⟩ := hsfx2
      refine ⟨q ++ [v], ?_, sfx, hsfx, by simp⟩
      simp only [List.mem_flatMap, List.mem_map]
      exact ⟨q, hq, v, hv, rfl⟩

/-- A tuple is produced by `cartesianProduct` exactly when it picks, in
order, one element from each input list. -/
theorem mem_cartesianProduct {α : Type} (arrays : List (List α)) (x : List α) :
    x ∈ cartesianProduct arrays ↔ List.Forall₂ (fun v arr => v ∈ arr) x arrays := by
  unfold cartesianProduct
  rw [mem_cartesianFold]
  simp

/-- Length of the `reduce` underlying `cartesianProduct`, for an arbitrary
accumulator. -/
theorem length_cartesianFold {α : Type} (as : List (List α)) (acc : List (List α)) :
    (as.foldl
        (fun acc arr => acc.flatMap (fun prev => arr.map (fun val => prev ++ [val]))) acc).length
      = acc.length * (as.map List.length).prod := by
  induction as generalizing acc with
  | nil => simp
  | cons a as ih =>
    rw [List.foldl_cons, ih]
    simp only [List.map_cons, List.prod_cons]
    rw [show (acc.flatMap fun prev => a.map (fun val => prev ++ [val])).length
        = acc.length * a.length by
      rw [List.length_flatMap]
      simp only [Function.comp_def, List.length_map]
      rw [List.map_const', List.sum_replicate, smul_eq_mul]]
    ring

/-- The `reduce` underlying `cartesianProduct` preserves distinctness when
every accumulator element has the same length. -/
theorem nodup_cartesianFold {α : Type} (as : List (List α)) :
    ∀ (acc : List (List α)) (L : Nat), (∀ p ∈ acc, p.length = L) → acc.Nodup →
    (∀ a ∈ as, a.Nodup) →
    (as.foldl
        (fun acc arr => acc.flatMap (fun prev => arr.map (fun val => prev ++ [val]))) acc).Nodup := by
  induction as with
  | nil => intro acc L _ hacc _; simpa using hacc
  | cons a as ih =>
    intro acc L hlen hacc hnd
    rw [List.foldl_cons]
    refine ih _ (L + 1) ?_ ?_ (fun b hb => hnd b (List.mem_cons_of_mem _ hb))
    · intro p hp
      simp only [List.mem_flatMap, List.mem_map] at hp
      obtain ⟨q, hq, v, _, rfl⟩ := hp
      simp [hlen q hq]
    · refine List.nodup_flatMap.2 ⟨fun q _ => (hnd a (List.mem_cons_self a as)).map ?_, ?_⟩
      · intro v w h
        simpa using List.append_cancel_left h
      · refine List.Pairwise.imp_of_mem ?_ hacc
        intro q r hq hr hne x hx hx2
        simp only [List.mem_map] at hx hx2
        obtain ⟨v, _, rfl⟩ := hx
        obtain ⟨w, _, h⟩ := hx2
        exact hne ((List.append_inj h ((hlen r hr).trans (hlen q hq).symm)).1).symm

/-- C5: for N configuration parameters the combination expander returns
exactly the product of the value-list lengths; each combination is a
length-N tuple whose k-th component is drawn from the k-th list; the
combinations are pairwise distinct when each value list is; every pointwise
choice from the lists is covered; and the empty parameter list yields
exactly the single empty combination. -/
theorem combination_expander_cartesian (α : Type) (arrays : List (List α)) :
    (cartesianProduct arrays).length = (arrays.map List.length).prod
    ∧ (∀ combo ∈ cartesianProduct arrays, combo.length = arrays.length)
    ∧ (∀ combo ∈ cartesianProduct arrays,
        ∀ (k : Nat) (hc : k < combo.length) (hk : k < arrays.length),
          combo.get ⟨k, hc⟩ ∈ arrays.get ⟨k, hk⟩)
    ∧ (∀ combo : List α, combo.length = arrays.length →
        (∀ (k : Nat) (hc : k < combo.length) (hk : k < arrays.length),
          combo.get ⟨k, hc⟩ ∈ arrays.get ⟨k, hk⟩) →
        combo ∈ cartesianProduct arrays)
    ∧ ((∀ a ∈ arrays, a.Nodup) → (cartesianProduct arrays).Nodup)
    ∧ cartesianProduct ([] : List (List α)) = [[]] := by
  refine ⟨?_, ?_, ?_, ?_, ?_, rfl⟩
  · have h := length_cartesianFold arrays [[]]
    unfold cartesianProduct
    simpa using h
  · intro combo hc
    exact ((mem_cartesianProduct arrays combo).1 hc).length_eq
  · intro combo hc k hck hk
    exact ((mem_cartesianProduct arrays combo).1 hc).get hck hk
  · intro combo hlen hget
    exact (mem_cartesianProduct arrays combo).2
      (List.forall₂_of_length_eq_of_get hlen hget)
  · intro hnd
    unfold cartesianProduct
    exact nodup_cartesianFold arrays [[]] 0 (by simp) (by simp) hnd

/-- Witness for the expander theorem at the concrete value lists
`[[1, 2], [3]]`. -/
theorem combination_expander_cartesian_witness :
    (cartesianProduct [[1, 2], [3]]).length = 2
    ∧ (cartesianProduct [[1, 2], [3]]).Nodup
    ∧ [2, 3] ∈ cartesianProduct [[1, 2], [3]] := by
  have h := combination_expander_cartesian Nat [[1, 2], [3]]
  refine ⟨by simpa using h.1, h.2.2.2.2.1 (by decide), ?_⟩
  refine h.2.2.2.1 [2, 3] (by decide) ?_
  intro k hc hk
  match k, hc with
  | 0, _ => simp
  | 1, _ => simp

/-! ## Container detection -/

/-- C10: `isZipPayload` is a total boolean function of its whole domain
(any optional content type, any buffer, including lengths 0 and 1, with no
access beyond the two guarded reads), and it returns `true` exactly when
the lowercased content type contains "zip" or the buffer has at least two
bytes and they are `0x50 0x4b`. -/
theorem isZipPayload_total_iff (contentType : Option String) (buffer : List Nat) :
    isZipPayload contentType buffer = true ↔
      (jsIncludes (jsToLower (contentType.getD "")) "zip" = true
        ∨ (2 ≤ buffer.length ∧ buffer.getD 0 0 = 0x50 ∧ buffer.getD 1 0 = 0x4b)) := by
  unfold isZipPayload
  by_cases h : jsIncludes (jsToLower (contentType.getD "")) "zip" = true
  · simp [h]
  · simp only [Bool.not_eq_true] at h
    simp [h, and_assoc]

/-! ## Configuration tag rendering -/

/-- The configuration tag is a function of the display names and bare
values of the pairs alone. -/
theorem humanConfigTag_eq_of_nameBare (p1 p2 : List ConfigPair)
    (h : p1.map (fun q => (q.parameterName, q.parameterBareValue))
       = p2.map (fun q => (q.parameterName, q.parameterBareValue))) :
    humanConfigTag p1 = humanConfigTag p2 := by
  have hmap : p1.map (fun q => q.parameterName ++ " = " ++ q.parameterBareValue)
      = p2.map (fun q => q.parameterName ++ " = " ++ q.parameterBareValue) := by
    have h1 : ∀ p : List ConfigPair,
        p.map (fun q => q.parameterName ++ " = " ++ q.parameterBareValue)
          = (p.map (fun q => (q.parameterName, q.parameterBareValue))).map
              (fun r => r.1 ++ " = " ++ r.2) := by
      intro p
      rw [List.map_map]
      rfl
    rw [h1, h1, h]
  unfold humanConfigTag
  cases p1 with
  | nil =>
    cases p2 with
    | nil => rfl
    | cons b bs => simp at h
  | cons a as =>
    cases p2 with
    | nil => simp at h
    | cons b bs =>
      simp only [List.isEmpty_cons]
      rw [hmap]

/-- Erasing every unit from the options leaves the (name, bare value)
projection of `buildConfigPairs` unchanged. -/
theorem buildConfigPairs_nameBare_eraseUnit (options : List ConfigOption)
    (combo : List ConfigValue) :
    (buildConfigPairs (options.map (fun o => { o with unit := "" })) combo).map
        (fun q => (q.parameterName, q.parameterBareValue))
      = (buildConfigPairs options combo).map
        (fun q => (q.parameterName, q.parameterBareValue)) := by
  unfold buildConfigPairs
  rw [List.enum_map, List.map_map, List.map_map, List.map_map]
  refine List.map_congr_left ?_
  intro p _
  rfl

/-- C9: the human-readable configuration tag renders each pair as
"displayName = bareValue" joined by " | " in parameter order and excludes
the unit even when one is supplied: erasing all units never changes the
tag, and the concrete combination [(Width, 50, "mm")] with display name
"Width" renders the tag "Width = 50", appended to the base name as
" - Width = 50", while the provider-facing `parameterValue` keeps the unit
suffix "50 mm". -/
theorem config_tag_excludes_unit :
    (∀ (options : List ConfigOption) (combo : List ConfigValue),
      humanConfigTag (buildConfigPairs options combo)
        = humanConfigTag
            (buildConfigPairs (options.map (fun o => { o with unit := "" })) combo))
    ∧ humanConfigTag
        (buildConfigPairs [⟨"Width", some "Width", [.num "50"], "mm"⟩] [.num "50"])
        = "Width = 50"
    ∧ tagSuffixOf
        (buildConfigPairs [⟨"Width", some "Width", [.num "50"], "mm"⟩] [.num "50"])
        (configTagFor
          (buildConfigPairs [⟨"Width", some "Width", [.num "50"], "mm"⟩] [.num "50"]))
        = " - Width = 50"
    ∧ (buildConfigPairs [⟨"Width", some "Width", [.num "50"], "mm"⟩] [.num "50"]).map
        (fun q => q.parameterValue) = ["50 mm"] := by
  refine ⟨?_, by decide, by decide, by decide⟩
  intro options combo
  exact (humanConfigTag_eq_of_nameBare _ _
    (buildConfigPairs_nameBare_eraseUnit options combo)).symm

/-! ## Archive entry naming -/

/-- Every successful STL unit stores its payload under a `stlEntry` name. -/
theorem runStlUnit_ok_shape (b t : String) (s : StlScript) (nc : String × List Nat)
    (h : runStlUnit b t s = .ok nc) :
    ∃ ct buf, nc = stlEntry b t ct buf := by
  unfold runStlUnit at h
  split at h
  · split at h
    · simp at h
    · split at h
      · simp at h
      · exact ⟨_, _, (Except.ok.inj h).symm⟩
  · split at h
    · simp at h
    · exact ⟨_, _, (Except.ok.inj h).symm⟩

/-- Every payload entry of a single-part translation unit is named with the
format extension. -/
theorem runSingleTranslation_ok_shape (req : ExportRequest) (b t : String)
    (n : Nat) (fmt : String) (tr : TranslationScript) (nc : String × List Nat)
    (h : runSingleTranslation req b t n fmt tr = .ok (some nc)) :
    nc.1 = b ++ t ++ "." ++ extForFormat fmt := by
  unfold runSingleTranslation at h
  split at h
  · simp at h
  · split at h
    · simp at h
    · simp at h
    · simp at h
    · split at h
      · simp at h
      · split at h
        · simp at h
        · dsimp only at h
          split at h
          · split at h
            · simp at h
            · exact congrArg Prod.fst (Option.some.inj (Except.ok.inj h)).symm
          · exact congrArg Prod.fst (Option.some.inj (Except.ok.inj h)).symm

/-- Every payload entry of a combined translation unit is named with the
format extension or the `.zip` fallback. -/
theorem runCombinedTranslation_ok_shape (b t : String)
    (n : Nat) (fmt : String) (tr : TranslationScript) (nc : String × List Nat)
    (h : runCombinedTranslation b t n fmt tr = .ok (some nc)) :
    nc.1 = b ++ t ++ ".zip" ∨ nc.1 = b ++ t ++ "." ++ extForFormat fmt := by
  unfold runCombinedTranslation at h
  split at h
  · simp at h
  · split at h
    · simp at h
    · simp at h
    · simp at h
    · split at h
      · simp at h
      · split at h
        · simp at h
        · dsimp only at h
          split at h
          · exact Or.inl (congrArg Prod.fst (Option.some.inj (Except.ok.inj h)).symm)
          · exact Or.inr (congrArg Prod.fst (Option.some.inj (Except.ok.inj h)).symm)

/-- C3 counterexample: in combine scope the base file name is the studio
name alone; the claimed `" - Combined"` suffix is not produced. -/
theorem base_name_combine_counterexample :
    getBaseFileName ⟨"d1", "e1", "Frame", "p1", "Bracket", true⟩ = "Frame"
    ∧ getBaseFileName ⟨"d1", "e1", "Frame", "p1", "Bracket", true⟩ ≠ "Frame - Combined" := by
  exact ⟨rfl, by decide⟩

/-- C3 amended: every archive entry name stored by a unit is the base name
— the studio name followed by " - " and the part name in single-part scope,
the studio name alone in combine scope — followed by " - {tag}" exactly
when the configuration pair list is non-empty, then a dot and either the
format extension or the `.zip` fallback for container payloads. -/
theorem entry_name_structure (req : ExportRequest) (configPairs : List ConfigPair)
    (configTag format : String) (script : UnitScript) (name : String)
    (content : List Nat)
    (h : runUnit req configPairs configTag format script = .ok (some (name, content))) :
    ∃ ext,
      name = (if req.combineParts then req.elementName
              else req.elementName ++ " - " ++ req.partName)
        ++ (if configPairs.length ≠ 0 then " - " ++ configTag else "")
        ++ "." ++ ext
      ∧ (ext = extForFormat (jsToUpper format) ∨ ext = "zip") := by
  have hbase : baseNameOf req
      = (if req.combineParts then req.elementName
         else req.elementName ++ " - " ++ req.partName) := by
    unfold baseNameOf getBaseFileName
    rfl
  have htag : tagSuffixOf configPairs configTag
      = (if configPairs.length ≠ 0 then " - " ++ configTag else "") := rfl
  unfold runUnit at h
  by_cases hstl : jsToUpper format = "STL"
  · rw [if_pos hstl] at h
    cases hrun : runStlUnit (baseNameOf req) (tagSuffixOf configPairs configTag) script.stl with
    | error e => rw [hrun] at h; simp [Except.map] at h
    | ok nc =>
      rw [hrun] at h
      simp only [Except.map] at h
      have hnc : nc = (name, content) := Option.some.inj (Except.ok.inj h)
      obtain ⟨ct, buf, hshape⟩ := runStlUnit_ok_shape _ _ _ _ hrun
      rw [hnc] at hshape
      unfold stlEntry at hshape
      split at hshape
      · refine ⟨"zip", ?_, Or.inr rfl⟩
        have hname : name
            = baseNameOf req ++ tagSuffixOf configPairs configTag ++ ".zip" :=
          congrArg Prod.fst hshape
        rw [← hbase, ← htag, hname, show (".zip" : String) = "." ++ "zip" from rfl]
        exact (String.append_assoc _ _ _).symm
      · refine ⟨"stl", ?_, Or.inl ?_⟩
        · have hname : name
              = baseNameOf req ++ tagSuffixOf configPairs configTag ++ ".stl" :=
            congrArg Prod.fst hshape
          rw [← hbase, ← htag, hname, show (".stl" : String) = "." ++ "stl" from rfl]
          exact (String.append_assoc _ _ _).symm
        · rw [hstl]
          decide
  · rw [if_neg hstl] at h
    split at h
    · have := runSingleTranslation_ok_shape _ _ _ _ _ _ _ h
      exact ⟨extForFormat (jsToUpper format), by rw [← hbase, ← htag]; exact this, Or.inl rfl⟩
    · rcases runCombinedTranslation_ok_shape _ _ _ _ _ _ h with h2 | h2
      · refine ⟨"zip", ?_, Or.inr rfl⟩
        have hname : name
            = baseNameOf req ++ tagSuffixOf configPairs configTag ++ ".zip" := h2
        rw [← hbase, ← htag, hname, show (".zip" : String) = "." ++ "zip" from rfl]
        exact (String.append_assoc _ _ _).symm
      · exact ⟨extForFormat (jsToUpper format), by rw [← hbase, ← htag]; exact h2, Or.inl rfl⟩

/-- Witness for the entry-name theorem: a concrete successful STEP unit of
the C1 scenario stores the entry `Frame - Bracket.step`. -/
theorem entry_name_structure_witness :
    ∃ ext,
      "Frame - Bracket.step"
        = (if reqC1.combineParts then reqC1.elementName
           else reqC1.elementName ++ " - " ++ reqC1.partName)
          ++ (if ([] : List ConfigPair).length ≠ 0 then " - " ++ "" else "")
          ++ "." ++ ext
      ∧ (ext = extForFormat (jsToUpper "STEP") ∨ ext = "zip") :=
  entry_name_structure reqC1 [] "" "STEP" ((envC1.scripts 0 1)) "Frame - Bracket.step" [9]
    (by rfl)

/-! ## Container entry selection -/

/-- C7: `pickZipEntryForPart` selects the unique extension match when
exactly one exists; the sole entry of a single-entry container when no
extension matches, whatever its name; `none` when the container is empty or
has several entries none of which matches; among several extension matches
it tries, in order, a prefix match against the normalized "studio - part"
name, a substring match on the normalized part name, a substring match on
the normalized studio name, and finally the first candidate; and on the
concrete container ["Frame - Bracket.step", "Frame - Plate.step"] with part
"Bracket" and studio "Frame" it selects the first entry. -/
theorem pick_zip_entry_disambiguation :
    (∀ (files : List ZipEntry) (opts : PickOpts),
      (extMatches files opts).length = 1 →
      pickZipEntryForPart files opts = (extMatches files opts).head?)
    ∧ (∀ (files : List ZipEntry) (opts : PickOpts),
      (extMatches files opts).length = 0 → (nonDirEntries files).length = 1 →
      pickZipEntryForPart files opts = (nonDirEntries files).head?)
    ∧ (∀ (files : List ZipEntry) (opts : PickOpts),
      nonDirEntries files = [] → pickZipEntryForPart files opts = none)
    ∧ (∀ (files : List ZipEntry) (opts : PickOpts),
      (extMatches files opts).length = 0 → (nonDirEntries files).length ≠ 1 →
      pickZipEntryForPart files opts = none)
    ∧ (∀ (files : List ZipEntry) (opts : PickOpts),
      2 ≤ (extMatches files opts).length →
      normalizeName opts.partName ≠ "" → normalizeName opts.elementName ≠ "" →
      pickZipEntryForPart files opts =
        ((extMatches files opts).find? (fun f =>
            jsStartsWith (normalizeName (lastSegment f.name))
              (normalizeName (opts.elementName ++ " - " ++ opts.partName)))).orElse
          (fun _ =>
            ((extMatches files opts).find? (fun f =>
                jsIncludes (normalizeName (lastSegment f.name))
                  (normalizeName opts.partName))).orElse
              (fun _ =>
                ((extMatches files opts).find? (fun f =>
                    jsIncludes (normalizeName (lastSegment f.name))
                      (normalizeName opts.elementName))).orElse
                  (fun _ => (extMatches files opts).head?))))
    ∧ pickZipEntryForPart
        [⟨"Frame - Bracket.step", false, [1]⟩, ⟨"Frame - Plate.step", false, [2]⟩]
        ⟨["step", "stp"], "Bracket", "Frame"⟩
      = some ⟨"Frame - Bracket.step", false, [1]⟩ := by
  refine ⟨?_, ?_, ?_, ?_, ?_, by decide⟩
  · intro files opts h1
    have hne : (nonDirEntries files).isEmpty = false := by
      cases hnd : nonDirEntries files with
      | nil =>
        rw [show extMatches files opts = [] by unfold extMatches; rw [hnd]; rfl] at h1
        simp at h1
      | cons a as => rfl
    unfold pickZipEntryForPart
    dsimp only
    rw [hne]
    simp only [Bool.false_eq_true, if_false]
    rw [if_pos h1]
  · intro files opts h0 h1
    have hne : (nonDirEntries files).isEmpty = false := by
      cases hnd : nonDirEntries files with
      | nil => rw [hnd] at h1; simp at h1
      | cons a as => rfl
    unfold pickZipEntryForPart
    dsimp only
    rw [hne]
    simp only [Bool.false_eq_true, if_false]
    rw [if_neg (by omega), if_pos h0, if_pos h1]
  · intro files opts hnil
    unfold pickZipEntryForPart
    dsimp only
    rw [show (nonDirEntries files).isEmpty = true by rw [hnil]; rfl]
    rfl
  · intro files opts h0 h1
    cases hnd : nonDirEntries files with
    | nil =>
      unfold pickZipEntryForPart
      dsimp only
      rw [show (nonDirEntries files).isEmpty = true by rw [hnd]; rfl]
      rfl
    | cons a as =>
      unfold pickZipEntryForPart
      dsimp only
      rw [show (nonDirEntries files).isEmpty = false by rw [hnd]; rfl]
      simp only [Bool.false_eq_true, if_false]
      rw [if_neg (by omega), if_pos h0, if_neg h1]
  · intro files opts h2 hnp hne
    have hpart : opts.partName ≠ "" := by
      intro hcon
      exact hnp (by rw [hcon]; rfl)
    have helem : opts.elementName ≠ "" := by
      intro hcon
      exact hne (by rw [hcon]; rfl)
    have hnonempty : (nonDirEntries files).isEmpty = false := by
      cases hnd : nonDirEntries files with
      | nil =>
        rw [show extMatches files opts = [] by unfold extMatches; rw [hnd]; rfl] at h2
        simp at h2
      | cons a as => rfl
    unfold pickZipEntryForPart
    dsimp only
    rw [hnonempty]
    simp only [Bool.false_eq_true, if_false]
    rw [if_neg (by omega), if_neg (by omega)]
    have hpre : (if opts.elementName ≠ "" ∧ opts.partName ≠ "" then
          normalizeName (opts.elementName ++ " - " ++ opts.partName)
        else "")
        = normalizeName (opts.elementName ++ " - " ++ opts.partName) :=
      if_pos ⟨helem, hpart⟩
    simp only [hpre]
    cases hf1 : (extMatches files opts).find? (fun f =>
        jsStartsWith (normalizeName (lastSegment f.name))
          (normalizeName (opts.elementName ++ " - " ++ opts.partName))) with
    | some hit => rfl
    | none =>
      rw [if_pos hnp]
      cases hf2 : (extMatches files opts).find? (fun f =>
          jsIncludes (normalizeName (lastSegment f.name))
            (normalizeName opts.partName)) with
      | some hit => rfl
      | none =>
        rw [if_pos hne]
        cases hf3 : (extMatches files opts).find? (fun f =>
            jsIncludes (normalizeName (lastSegment f.name))
              (normalizeName opts.elementName)) with
        | some hit => rfl
        | none => rfl

/-- Witness for the selection theorem: the disambiguation chain picks the
part-name substring match, and a single non-matching entry is picked
regardless of its name. -/
theorem pick_zip_entry_disambiguation_witness :
    pickZipEntryForPart [⟨"a.step", false, [1]⟩, ⟨"b.step", false, [2]⟩]
        ⟨["step"], "b", "g"⟩ = some ⟨"b.step", false, [2]⟩
    ∧ pickZipEntryForPart [⟨"weird.bin", false, [3]⟩] ⟨["step"], "Bracket", "Frame"⟩
      = some ⟨"weird.bin", false, [3]⟩ := by
  constructor
  · have h := pick_zip_entry_disambiguation.2.2.2.2.1
      [⟨"a.step", false, [1]⟩, ⟨"b.step", false, [2]⟩] ⟨["step"], "b", "g"⟩
      (by decide) (by decide) (by decide)
    rw [h]
    decide
  · have h := pick_zip_entry_disambiguation.2.1
      [⟨"weird.bin", false, [3]⟩] ⟨["step"], "Bracket", "Frame"⟩ (by decide) (by decide)
    rw [h]
    decide

/-! ## Polling state machine -/

/-- If the first `n` polls are non-terminal and the next one reports
`DONE` within the attempt budget, the loop ends successfully right after
that poll. -/
theorem pollLoopFrom_done (polls : Nat → PollResult) (ids : List String)
    (reason : Option String) :
    ∀ (n start remaining : Nat), n < remaining →
    (∀ i, i < n → nonTerminal (polls (start + i)) = true) →
    polls (start + n) = .state "DONE" ids reason →
    pollLoopFrom polls remaining start = .done ids (start + n + 1) := by
  intro n
  induction n with
  | zero =>
    intro start remaining hrem hpre hdone
    match remaining, hrem with
    | r + 1, _ =>
      unfold pollLoopFrom
      rw [show start + 0 = start from rfl] at hdone
      rw [hdone]
      rfl
  | succ n ih =>
    intro start remaining hrem hpre hdone
    match remaining, hrem with
    | r + 1, hrem =>
      unfold pollLoopFrom
      have h0 := hpre 0 (Nat.succ_pos n)
      cases hp : polls (start + 0) with
      | transport s t => rw [hp] at h0; simp [nonTerminal] at h0
      | state rs ids2 r2 =>
        rw [hp] at h0
        simp only [nonTerminal, Bool.and_eq_true, Bool.not_eq_true', beq_eq_false_iff_ne,
          ne_eq] at h0
        rw [show start + 0 = start from rfl] at hp
        rw [hp]
        dsimp only
        rw [if_neg h0.1, if_neg h0.2]
        rw [show start + (n + 1) + 1 = (start + 1) + n + 1 by omega]
        refine ih (start + 1) r (by omega) ?_ ?_
        · intro i hi
          have := hpre (i + 1) (by omega)
          rw [show start + (i + 1) = start + 1 + i by omega] at this
          exact this
        · rw [show start + 1 + n = start + (n + 1) by omega]
          exact hdone

/-- If every poll in the budget is non-terminal, the loop times out after
exactly the budgeted number of polls. -/
theorem pollLoopFrom_timeout (polls : Nat → PollResult) :
    ∀ (remaining start : Nat),
    (∀ i, i < remaining → nonTerminal (polls (start + i)) = true) →
    pollLoopFrom polls remaining start = .timeout (start + remaining) := by
  intro remaining
  induction remaining with
  | zero => intro start _; rfl
  | succ r ih =>
    intro start hpre
    unfold pollLoopFrom
    have h0 := hpre 0 (Nat.succ_pos r)
    cases hp : polls (start + 0) with
    | transport s t => rw [hp] at h0; simp [nonTerminal] at h0
    | state rs ids2 r2 =>
      rw [hp] at h0
      simp only [nonTerminal, Bool.and_eq_true, Bool.not_eq_true', beq_eq_false_iff_ne,
        ne_eq] at h0
      rw [show start + 0 = start from rfl] at hp
      rw [hp]
      dsimp only
      rw [if_neg h0.1, if_neg h0.2]
      rw [show start + (r + 1) = (start + 1) + r by omega]
      refine ih (start + 1) ?_
      intro i hi
      have := hpre (i + 1) (by omega)
      rw [show start + (i + 1) = start + 1 + i by omega] at this
      exact this

/-- The loop's outcome only depends on the polls inside the budget. -/
theorem pollLoopFrom_congr (polls polls2 : Nat → PollResult) :
    ∀ (remaining start : Nat),
    (∀ i, i < start + remaining → polls i = polls2 i) →
    pollLoopFrom polls remaining start = pollLoopFrom polls2 remaining start := by
  intro remaining
  induction remaining with
  | zero => intro start _; rfl
  | succ r ih =>
    intro start hagree
    unfold pollLoopFrom
    rw [← hagree start (by omega)]
    cases hp : polls start with
    | transport s t => rfl
    | state rs ids2 r2 =>
      dsimp only
      by_cases hd : rs = "DONE"
      · rw [if_pos hd, if_pos hd]
      · rw [if_neg hd, if_neg hd]
        by_cases hf : rs = "FAILED"
        · rw [if_pos hf, if_pos hf]
        · rw [if_neg hf, if_neg hf]
          refine ih (start + 1) ?_
          intro i hi
          exact hagree i (by omega)

/-- C6: with `k - 1` non-terminal poll statuses followed by `DONE`
(`k ≤ 90`), the dispatcher issues exactly `k` polls and the unit succeeds
after the `k`-th; with 90 consecutive non-terminal statuses it stops at
exactly 90 polls (the outcome never depends on a 91st poll) and fails with
the 408 timeout response, distinguishable from the 500 response of a
provider-reported `FAILED`. -/
theorem polling_exact_counts :
    (∀ (polls : Nat → PollResult) (k : Nat) (ids : List String) (reason : Option String),
      1 ≤ k → k ≤ 90 →
      (∀ i, i < k - 1 → nonTerminal (polls i) = true) →
      polls (k - 1) = .state "DONE" ids reason →
      pollLoop polls = .done ids k)
    ∧ (∀ polls : Nat → PollResult,
      (∀ i, i < 90 → nonTerminal (polls i) = true) →
      pollLoop polls = .timeout 90)
    ∧ (∀ polls polls2 : Nat → PollResult,
      (∀ i, i < 90 → polls i = polls2 i) →
      pollLoop polls = pollLoop polls2)
    ∧ (∀ (req : ExportRequest) (b t : String) (n : Nat) (fmt : String)
        (tr : TranslationScript) (ids : List String) (m : Nat),
      pollLoop tr.polls = .done ids m → ids ≠ [] →
      respOk tr.submitStatus = true → respOk tr.downloadStatus = true →
      isZipPayload tr.downloadContentType tr.downloadBody = false →
      runSingleTranslation req b t n fmt tr
        = .ok (some (b ++ t ++ "." ++ extForFormat fmt, tr.downloadBody)))
    ∧ (∀ (req : ExportRequest) (b t : String) (n : Nat) (fmt : String)
        (tr : TranslationScript) (m : Nat),
      pollLoop tr.polls = .timeout m → respOk tr.submitStatus = true →
      runSingleTranslation req b t n fmt tr
        = .error ⟨408, "Translation timeout for " ++ fmt ++
            (if n ≠ 0 then " (configuration encoded)" else "")⟩)
    ∧ (∀ (req : ExportRequest) (b t : String) (n : Nat) (fmt : String)
        (tr : TranslationScript) (reason : Option String) (m : Nat),
      pollLoop tr.polls = .failed reason m → respOk tr.submitStatus = true →
      runSingleTranslation req b t n fmt tr
        = .error ⟨500, "Translation failed (" ++ fmt ++ "): " ++ reason.getD "Unknown"⟩) := by
  refine ⟨?_, ?_, ?_, ?_, ?_, ?_⟩
  · intro polls k ids reason h1 h90 hpre hdone
    unfold pollLoop maxAttempts
    have h := pollLoopFrom_done polls ids reason (k - 1) 0 90 (by omega)
      (by intro i hi; rw [Nat.zero_add]; exact hpre i hi)
      (by rw [Nat.zero_add]; exact hdone)
    rw [h]
    rw [show 0 + (k - 1) + 1 = k by omega]
  · intro polls hpre
    unfold pollLoop maxAttempts
    have h := pollLoopFrom_timeout polls 90 0
      (by intro i hi; rw [Nat.zero_add]; exact hpre i hi)
    rw [h]
  · intro polls polls2 hagree
    unfold pollLoop maxAttempts
    exact pollLoopFrom_congr polls polls2 90 0
      (by intro i hi; exact hagree i (by omega))
  · intro req b t n fmt tr ids m hpoll hids hsub hdl hzip
    unfold runSingleTranslation
    rw [hpoll, hsub]
    simp only [Bool.not_true, Bool.false_eq_true, if_false]
    rw [show ids.isEmpty = false by cases ids with | nil => exact absurd rfl hids | cons a as => rfl]
    rw [hdl]
    simp only [Bool.not_true, Bool.false_eq_true, if_false]
    simp [hzip]
  · intro req b t n fmt tr m hpoll hsub
    unfold runSingleTranslation
    rw [hpoll, hsub]
    simp
  · intro req b t n fmt tr reason m hpoll hsub
    unfold runSingleTranslation
    rw [hpoll, hsub]
    simp

/-- Witness for the polling theorem: two pending polls then `DONE` give
exactly three polls; 90 pending polls give a timeout after exactly 90; the
outcome ignores polls beyond the 90th. -/
theorem polling_exact_counts_witness :
    pollLoop (fun i => if i < 2 then .state "PENDING" [] none
      else .state "DONE" ["x"] none) = .done ["x"] 3
    ∧ pollLoop (fun _ => .state "PENDING" [] none) = .timeout 90
    ∧ pollLoop (fun _ => .state "PENDING" [] none)
      = pollLoop (fun i => if i < 90 then .state "PENDING" [] none
          else .state "DONE" ["late"] none) := by
  refine ⟨?_, ?_, ?_⟩
  · exact polling_exact_counts.1
      (fun i => if i < 2 then .state "PENDING" [] none else .state "DONE" ["x"] none)
      3 ["x"] none (by decide) (by decide) (by decide) (by decide)
  · exact polling_exact_counts.2.1 (fun _ => .state "PENDING" [] none) (by decide)
  · exact polling_exact_counts.2.2.1 (fun _ => .state "PENDING" [] none)
      (fun i => if i < 90 then .state "PENDING" [] none else .state "DONE" ["late"] none)
      (by decide)

/-! ## Characterization of the export loops -/

/-- Unfolding equation of `formatAdds` at a cons cell. -/
theorem formatAdds_cons (env : ProviderEnv) (req : ExportRequest) (i : Nat)
    (configPairs : List ConfigPair) (configTag format : String)
    (rest : List String) (j : Nat) :
    formatAdds env req i configPairs configTag (format :: rest) j
      = (match runUnit req configPairs configTag format (env.scripts i j) with
         | .ok (some nc) => [nc]
         | _ => []) ++ formatAdds env req i configPairs configTag rest (j + 1) := rfl

/-- Unfolding equation of `comboAdds` at a cons cell. -/
theorem comboAdds_cons (env : ProviderEnv) (req : ExportRequest)
    (combo : List ConfigValue) (rest : List (List ConfigValue)) (i : Nat) :
    comboAdds env req (combo :: rest) i
      = formatAdds env req i (configPairsFor req combo)
          (configTagFor (configPairsFor req combo)) (req.formats.getD []) 0
        ++ comboAdds env req rest (i + 1) := rfl

/-- If the format loop completes, every unit in it completed without an
error and the accumulated archive is the `zipFile` fold of the added
entries. -/
theorem runFormats_ok (env : ProviderEnv) (req : ExportRequest) (i : Nat)
    (configPairs : List ConfigPair) (configTag : String) :
    ∀ (fmts : List String) (j : Nat) (acc res : List (String × List Nat)),
    runFormats env req i configPairs configTag fmts j acc = .ok res →
    (∀ k, k < fmts.length → ∃ v,
      runUnit req configPairs configTag (fmts.getD k "") (env.scripts i (j + k)) = .ok v)
    ∧ res = (formatAdds env req i configPairs configTag fmts j).foldl
        (fun a nc => zipFile a nc.1 nc.2) acc := by
  intro fmts
  induction fmts with
  | nil =>
    intro j acc res h
    refine ⟨by intro k hk; exact absurd hk (by simp), ?_⟩
    unfold runFormats at h
    exact (Except.ok.inj h).symm
  | cons format rest ih =>
    intro j acc res h
    unfold runFormats at h
    cases hu : runUnit req configPairs configTag format (env.scripts i j) with
    | error e => rw [hu] at h; simp at h
    | ok v =>
      rw [hu] at h
      cases v with
      | none =>
        dsimp only at h
        obtain ⟨hall, hres⟩ := ih (j + 1) acc res h
        refine ⟨?_, ?_⟩
        · intro k hk
          match k with
          | 0 => exact ⟨none, hu⟩
          | k + 1 =>
            have := hall k (by simpa using hk)
            rw [show j + 1 + k = j + (k + 1) by omega] at this
            exact this
        · rw [hres, formatAdds_cons, hu]
          rfl
      | some nc =>
        dsimp only at h
        obtain ⟨hall, hres⟩ := ih (j + 1) (zipFile acc nc.1 nc.2) res h
        refine ⟨?_, ?_⟩
        · intro k hk
          match k with
          | 0 => exact ⟨some nc, hu⟩
          | k + 1 =>
            have := hall k (by simpa using hk)
            rw [show j + 1 + k = j + (k + 1) by omega] at this
            exact this
        · rw [hres, formatAdds_cons, hu]
          rfl

/-- If the combination loop completes, every expanded unit completed
without an error and the accumulated archive is the `zipFile` fold of all
added entries. -/
theorem runCombos_ok (env : ProviderEnv) (req : ExportRequest) :
    ∀ (combos : List (List ConfigValue)) (i : Nat) (acc res : List (String × List Nat)),
    runCombos env req combos i acc = .ok res →
    (∀ k, k < combos.length → ∀ j, j < (req.formats.getD []).length → ∃ v,
      runUnit req (configPairsFor req (combos.getD k []))
        (configTagFor (configPairsFor req (combos.getD k [])))
        ((req.formats.getD []).getD j "") (env.scripts (i + k) j) = .ok v)
    ∧ res = (comboAdds env req combos i).foldl (fun a nc => zipFile a nc.1 nc.2) acc := by
  intro combos
  induction combos with
  | nil =>
    intro i acc res h
    refine ⟨by intro k hk; exact absurd hk (by simp), ?_⟩
    unfold runCombos at h
    exact (Except.ok.inj h).symm
  | cons combo rest ih =>
    intro i acc res h
    unfold runCombos at h
    dsimp only at h
    split at h
    · simp at h
    · cases hf : runFormats env req i (configPairsFor req combo)
          (configTagFor (configPairsFor req combo)) (req.formats.getD []) 0 acc with
      | error e => rw [hf] at h; simp at h
      | ok acc2 =>
        rw [hf] at h
        dsimp only at h
        obtain ⟨hall1, hacc2⟩ := runFormats_ok env req i _ _ _ 0 acc acc2 hf
        obtain ⟨hall2, hres⟩ := ih (i + 1) acc2 res h
        refine ⟨?_, ?_⟩
        · intro k hk j hj
          match k with
          | 0 =>
            have := hall1 j hj
            rw [Nat.zero_add] at this
            exact this
          | k + 1 =>
            have := hall2 k (by simpa using hk) j hj
            rw [show i + 1 + k = i + (k + 1) by omega] at this
            exact this
        · rw [hres, hacc2, comboAdds_cons, List.foldl_append]

/-- A request that ends in an archive ran every expanded unit without an
error, and the archive is the `zipFile` fold of all added entries. -/
theorem runExport_archive (env : ProviderEnv) (req : ExportRequest)
    (entries : List (String × List Nat))
    (h : runExport env req = .archive entries) :
    (∀ k, k < (combosOf req).length → ∀ j, j < (req.formats.getD []).length →
      ∃ v, unitResult env req k j = .ok v)
    ∧ entries = (allAdds env req).foldl (fun a nc => zipFile a nc.1 nc.2) [] := by
  unfold runExport at h
  split at h
  · simp at h
  · split at h
    · simp at h
    · split at h
      · simp at h
      · split at h
        · simp at h
        · split at h
          · simp at h
          · cases hrc : runCombos env req (combosOf req) 0 [] with
            | error e => rw [hrc] at h; simp at h
            | ok entries2 =>
              rw [hrc] at h
              dsimp only at h
              have hent : entries = entries2 := (ExportResult.archive.inj h).symm
              obtain ⟨hall, hres⟩ := runCombos_ok env req (combosOf req) 0 [] entries2 hrc
              refine ⟨?_, ?_⟩
              · intro k hk j hj
                have := hall k hk j hj
                rw [Nat.zero_add] at this
                exact this
              · rw [hent, hres]
                rfl

/-! ## Failure propagation -/

/-- C1 counterexample: the STL unit fails terminally, the request returns
its error response and no archive at all, although the sibling STEP unit of
the same request would have produced the entry `Frame - Bracket.step`. -/
theorem unit_failure_counterexample :
    runExport envC1 reqC1 = .errorResponse 400 "STL export failed: Bad Request"
    ∧ unitResult envC1 reqC1 0 1 = .ok (some ("Frame - Bracket.step", [9])) :=
  ⟨rfl, rfl⟩

/-- C1 amended: a terminal failure of any expanded unit aborts the whole
request — the handler returns an error response and produces no archive,
not even a partial one. -/
theorem unit_failure_aborts_request (env : ProviderEnv) (req : ExportRequest)
    (i j : Nat) (e : ErrorResponse)
    (hi : i < (combosOf req).length) (hj : j < (req.formats.getD []).length)
    (hfail : unitResult env req i j = .error e) :
    ∃ s m, runExport env req = .errorResponse s m := by
  cases hres : runExport env req with
  | errorResponse s m => exact ⟨s, m, rfl⟩
  | archive entries =>
    obtain ⟨hok, _⟩ := runExport_archive env req entries hres
    obtain ⟨v, hv⟩ := hok i hi j hj
    rw [hfail] at hv
    simp at hv

/-- Witness for the abort theorem at the C1 scenario. -/
theorem unit_failure_aborts_request_witness :
    ∃ s m, runExport envC1 reqC1 = .errorResponse s m :=
  unit_failure_aborts_request envC1 reqC1 0 0 ⟨400, "STL export failed: Bad Request"⟩
    (by decide) (by decide) (by rfl)

/-! ## Entry-name collisions -/

/-- C2: in combine scope, two units of different formats whose payloads are
containers are both stored under the `.zip` fallback name; they collide on
the single name `Elem.zip` and the second payload silently overwrites the
first, leaving one archive entry for two successful units. -/
theorem zip_fallback_name_collision :
    unitResult envC2 reqC2 0 0 = .ok (some ("Elem.zip", [1]))
    ∧ unitResult envC2 reqC2 0 1 = .ok (some ("Elem.zip", [2]))
    ∧ runExport envC2 reqC2 = .archive [("Elem.zip", [2])] :=
  ⟨rfl, rfl, rfl⟩

/-! ## Request validation -/

/-- C4 counterexample: a request with an empty (but present) formats list
is not rejected; the handler resolves the workspace and returns an empty
archive. -/
theorem empty_formats_not_rejected :
    runExport envC1 reqC4 = .archive [] := rfl

/-- C4 amended: a request missing the document id, the studio id or the
formats array, or missing both the part id and the part name while combine
scope is off, is rejected with a 400 validation error whatever the
provider would answer; an empty formats list, however, passes validation. -/
theorem request_validation (env : ProviderEnv) (req : ExportRequest) :
    (req.authHeader.isSome = true →
      (req.documentId = "" ∨ req.elementId = "" ∨ req.formats = none) →
      runExport env req
        = .errorResponse 400 "Missing required parameters: documentId, elementId, formats[]")
    ∧ (req.authHeader.isSome = true → req.documentId ≠ "" → req.elementId ≠ "" →
      req.formats ≠ none → req.combineParts = false → req.partId = "" →
      req.partName = "" →
      runExport env req
        = .errorResponse 400 "partId or partName is required when combineParts is false") := by
  constructor
  · intro hauth hmiss
    unfold runExport
    rw [if_neg (by simp [Option.isNone_iff_eq_none]; exact Option.isSome_iff_ne_none.1 hauth)]
    rw [if_pos (by rcases hmiss with h | h | h <;> simp [h, Option.isNone_iff_eq_none])]
  · intro hauth hdoc helem hfmts hcomb hpid hpname
    unfold runExport
    rw [if_neg (by simp [Option.isNone_iff_eq_none]; exact Option.isSome_iff_ne_none.1 hauth)]
    rw [if_neg (by simp [Option.isNone_iff_eq_none]; exact ⟨hdoc, helem, hfmts⟩)]
    rw [if_pos (by rw [hcomb]; exact ⟨by simp, hpid, hpname⟩)]

/-- Witness for the validation theorem: both rejection branches at concrete
requests. -/
theorem request_validation_witness :
    runExport envC1 { reqC1 with formats := none }
      = .errorResponse 400 "Missing required parameters: documentId, elementId, formats[]"
    ∧ runExport envC1 { reqC1 with partId := "", partName := "" }
      = .errorResponse 400 "partId or partName is required when combineParts is false" := by
  constructor
  · exact (request_validation envC1 _).1 (by decide) (by decide)
  · exact (request_validation envC1 _).2 (by decide) (by decide) (by decide) (by decide)
      (by decide) (by decide) (by decide)

/-! ## Archive entry counting -/

/-- Writing through `zip.file` keeps the name list unchanged when the name exists and
appends it otherwise. -/
theorem zipFile_names (files : List (String × List Nat)) (name : String)
    (content : List Nat) :
    (zipFile files name content).map Prod.fst
      = if name ∈ files.map Prod.fst then files.map Prod.fst
        else files.map Prod.fst ++ [name] := by
  have hmem : (files.any (fun e => e.1 = name) = true) ↔ name ∈ files.map Prod.fst := by
    simp [List.any_eq_true, List.mem_map]
  unfold zipFile
  by_cases h : name ∈ files.map Prod.fst
  · rw [if_pos (hmem.2 h), if_pos h, List.map_map]
    refine List.map_congr_left ?_
    intro e _
    by_cases he : e.1 = name
    · simp [he]
    · simp [he]
  · rw [if_neg (fun hc => h (hmem.1 hc)), if_neg h]
    simp

/-- Writing through `zip.file` preserves distinctness of the stored names. -/
theorem zipFile_nodup (files : List (String × List Nat)) (name : String)
    (content : List Nat) (h : (files.map Prod.fst).Nodup) :
    ((zipFile files name content).map Prod.fst).Nodup := by
  rw [zipFile_names]
  by_cases hm : name ∈ files.map Prod.fst
  · rwa [if_pos hm]
  · rw [if_neg hm]
    simp [List.nodup_append, h, hm]

/-- The set of stored names after `zip.file` gains exactly the new name. -/
theorem zipFile_toFinset (files : List (String × List Nat)) (name : String)
    (content : List Nat) :
    ((zipFile files name content).map Prod.fst).toFinset
      = insert name ((files.map Prod.fst).toFinset) := by
  rw [zipFile_names]
  by_cases hm : name ∈ files.map Prod.fst
  · rw [if_pos hm]
    exact (Finset.insert_eq_self.2 (by simp [hm])).symm
  · rw [if_neg hm]
    simp [Finset.insert_eq, Finset.union_comm]

/-- Folding entries through `zip.file` accumulates exactly the set of
their names and keeps the stored names distinct. -/
theorem foldl_zipFile_names (l : List (String × List Nat)) :
    ∀ acc : List (String × List Nat),
    (((l.foldl (fun a nc => zipFile a nc.1 nc.2) acc)).map Prod.fst).toFinset
      = (acc.map Prod.fst).toFinset ∪ (l.map Prod.fst).toFinset
    ∧ ((acc.map Prod.fst).Nodup →
      (((l.foldl (fun a nc => zipFile a nc.1 nc.2) acc)).map Prod.fst).Nodup) := by
  induction l with
  | nil => intro acc; simp
  | cons nc rest ih =>
    intro acc
    constructor
    · rw [List.foldl_cons, (ih _).1, zipFile_toFinset]
      simp only [List.map_cons, List.toFinset_cons]
      ext a
      simp only [Finset.mem_union, Finset.mem_insert, List.mem_toFinset]
      tauto
    · intro h
      rw [List.foldl_cons]
      exact (ih _).2 (zipFile_nodup _ _ _ h)

/-- The archive size is the number of distinct names among the folded
entries. -/
theorem foldl_zipFile_length (l : List (String × List Nat)) :
    (l.foldl (fun a nc => zipFile a nc.1 nc.2) []).length
      = ((l.map Prod.fst).toFinset).card := by
  have h1 := (foldl_zipFile_names l []).1
  have h2 := (foldl_zipFile_names l []).2 (by simp)
  rw [show (l.foldl (fun a nc => zipFile a nc.1 nc.2) []).length
      = ((l.foldl (fun a nc => zipFile a nc.1 nc.2) []).map Prod.fst).length by
    rw [List.length_map]]
  rw [← List.toFinset_card_of_nodup h2, h1]
  simp

/-- C8 amended: a `DONE` poll with zero result ids completes the unit with
no archive entry and no error, in both the single-part and the combined
branch; and when the handler does return an archive, its entry count is the
number of distinct entry names among the units that completed with a
payload (a name collision makes it smaller than their number). -/
theorem zero_result_and_entry_count :
    (∀ (env : ProviderEnv) (req : ExportRequest) (entries : List (String × List Nat)),
      runExport env req = .archive entries →
      entries.length = ((allAdds env req).map Prod.fst).toFinset.card)
    ∧ (∀ (req : ExportRequest) (b t : String) (n : Nat) (fmt : String)
        (tr : TranslationScript) (m : Nat),
      respOk tr.submitStatus = true → pollLoop tr.polls = .done [] m →
      runSingleTranslation req b t n fmt tr = .ok none)
    ∧ (∀ (b t : String) (n : Nat) (fmt : String) (tr : TranslationScript) (m : Nat),
      respOk tr.submitStatus = true → pollLoop tr.polls = .done [] m →
      runCombinedTranslation b t n fmt tr = .ok none) := by
  refine ⟨?_, ?_, ?_⟩
  · intro env req entries h
    obtain ⟨_, hres⟩ := runExport_archive env req entries h
    rw [hres]
    exact foldl_zipFile_length (allAdds env req)
  · intro req b t n fmt tr m hsub hpoll
    unfold runSingleTranslation
    rw [hpoll, hsub]
    simp
  · intro b t n fmt tr m hsub hpoll
    unfold runCombinedTranslation
    rw [hpoll, hsub]
    simp

/-- C8 counterexample: in the C8 scenario two units complete with a payload
and one completes with zero results, yet the archive has a single entry
(the colliding name was overwritten), so the entry count differs from the
number of payload-producing units. -/
theorem entry_count_counterexample :
    runExport envC8 reqC8 = .archive [("Studio.zip", [4])]
    ∧ allAdds envC8 reqC8 = [("Studio.zip", [3]), ("Studio.zip", [4])]
    ∧ unitResult envC8 reqC8 0 2 = .ok none :=
  ⟨rfl, rfl, rfl⟩

/-- Witness for the entry-count theorem at the C8 scenario. -/
theorem zero_result_and_entry_count_witness :
    ([(("Studio.zip" : String), ([4] : List Nat))]).length
      = ((allAdds envC8 reqC8).map Prod.fst).toFinset.card
    ∧ runSingleTranslation reqC8 "B" "" 0 "IGES"
        { translationDone [] none [] with polls := fun _ => .state "DONE" [] none }
      = .ok none := by
  constructor
  · exact zero_result_and_entry_count.1 envC8 reqC8 [("Studio.zip", [4])] (by rfl)
  · exact zero_result_and_entry_count.2.1 reqC8 "B" "" 0 "IGES" _ 1 (by decide) (by rfl)

